import Mathlib

set_option autoImplicit false

/-!
Shallow embedding of `route-rs-runtime/src/state/nat_table.rs`.

`NatTable` wraps a `bimap::BiHashMap<LookupTupleIpv4, LookupTupleIpv4>` behind
an `RwLock`.  The embedding is sequential: each Rust method that takes
`&mut`-like access through the lock becomes a state-passing function, each
read-only method a pure function of the state.  The `RwLock` itself only
serialises access and carries no data semantics, so it is dropped here.
-/

/-- Modelled from the spec: `LookupTupleIpv4` (`crate::packet::tuple`) is not
under `src/`; the spec (section 3) describes it as an immutable value of five
fields — transport protocol, source address, destination address, source port,
destination port — with two values equal iff all five fields are equal, and
hashable.  Field carriers are modelled as `Nat`; only decidable equality of
whole tuples matters to the table. -/
structure LookupTupleIpv4 where
  protocol : Nat
  src_addr : Nat
  dst_addr : Nat
  src_port : Nat
  dst_port : Nat
  deriving DecidableEq

/-- Model of `bimap::BiHashMap`: a finite collection of left-right pairs.
Hash-bucket order never matters to the embedded operations on states
satisfying the bimap invariant (pairwise distinct lefts and rights), so the
collection is represented as a list. -/
abbrev BiHashMap (α β : Type) : Type := List (α × β)

/-- `BiHashMap::new`. -/
def BiHashMap.empty (α β : Type) : BiHashMap α β := []

/-- `BiHashMap::contains_left`. -/
def BiHashMap.contains_left {α β : Type} [DecidableEq α]
    (m : BiHashMap α β) (l : α) : Bool :=
  m.any (fun p => decide (p.1 = l))

/-- `BiHashMap::contains_right`. -/
def BiHashMap.contains_right {α β : Type} [DecidableEq β]
    (m : BiHashMap α β) (r : β) : Bool :=
  m.any (fun p => decide (p.2 = r))

/-- `BiHashMap::get_by_left`. -/
def BiHashMap.get_by_left {α β : Type} [DecidableEq α]
    (m : BiHashMap α β) (l : α) : Option β :=
  (m.find? (fun p => decide (p.1 = l))).map Prod.snd

/-- `BiHashMap::get_by_right`. -/
def BiHashMap.get_by_right {α β : Type} [DecidableEq β]
    (m : BiHashMap α β) (r : β) : Option α :=
  (m.find? (fun p => decide (p.2 = r))).map Prod.fst

/-- `BiHashMap::insert`: removes the existing pair keyed by `l` on the left
(if any) and the existing pair keyed by `r` on the right (if any), then
inserts the pair `(l, r)`.  A pair in which `l` occurs only on the right, or
`r` only on the left, is untouched. -/
def BiHashMap.insert {α β : Type} [DecidableEq α] [DecidableEq β]
    (m : BiHashMap α β) (l : α) (r : β) : BiHashMap α β :=
  (l, r) :: m.filter (fun p => !decide (p.1 = l) && !decide (p.2 = r))

/-- `BiHashMap::insert_no_overwrite`: fails, returning the attempted pair and
leaving the map unchanged, when `l` is already a left value or `r` is already
a right value; otherwise inserts. -/
def BiHashMap.insert_no_overwrite {α β : Type} [DecidableEq α] [DecidableEq β]
    (m : BiHashMap α β) (l : α) (r : β) : Except (α × β) (BiHashMap α β) :=
  if m.contains_left l || m.contains_right r then
    Except.error (l, r)
  else
    Except.ok (m.insert l r)

/-- `BiHashMap::len`. -/
def BiHashMap.len {α β : Type} (m : BiHashMap α β) : Nat :=
  List.length m

/-- `BiHashMap::is_empty`. -/
def BiHashMap.is_empty {α β : Type} (m : BiHashMap α β) : Bool :=
  List.isEmpty m

/-- `BiHashMap::clear`. -/
def BiHashMap.clear {α β : Type} (_m : BiHashMap α β) : BiHashMap α β := []

/-- The bimap representation invariant: no two pairs share a left value and no
two pairs share a right value (a partial bijection). -/
def BiHashMap.Bijective {α β : Type} (m : BiHashMap α β) : Prop :=
  m.Pairwise (fun p q => p.1 ≠ q.1 ∧ p.2 ≠ q.2)

instance BiHashMap.decidableBijective {α β : Type} [DecidableEq α] [DecidableEq β]
    (m : BiHashMap α β) : Decidable m.Bijective :=
  inferInstanceAs (Decidable (m.Pairwise _))

instance Except.decidableEqUnit : DecidableEq (Except Unit Unit) := fun a b =>
  match a, b with
  | Except.ok (), Except.ok () => isTrue rfl
  | Except.ok (), Except.error () => isFalse (fun h => Except.noConfusion h)
  | Except.error (), Except.ok () => isFalse (fun h => Except.noConfusion h)
  | Except.error (), Except.error () => isTrue rfl

/-- `NatTable`: `struct NatTable { table: RwLock<BiHashMap<LookupTupleIpv4,
LookupTupleIpv4>> }`; the lock is elided (see the module comment). -/
structure NatTable where
  table : BiHashMap LookupTupleIpv4 LookupTupleIpv4
  deriving DecidableEq

/-- `NatTable::new`. -/
def NatTable.new : NatTable :=
  ⟨BiHashMap.empty _ _⟩

/-- `NatTable::insert`: `insert_no_overwrite` on the map; on its error the
method returns `Err(())` (state untouched), otherwise `Ok(())`. -/
def NatTable.insert (t : NatTable) (internal ext : LookupTupleIpv4) :
    Except Unit Unit × NatTable :=
  match t.table.insert_no_overwrite internal ext with
  | Except.error _ => (Except.error (), t)
  | Except.ok m => (Except.ok (), ⟨m⟩)

/-- `NatTable::insert_overwrite`: plain `BiHashMap::insert`; no result. -/
def NatTable.insert_overwrite (t : NatTable) (internal ext : LookupTupleIpv4) :
    NatTable :=
  ⟨t.table.insert internal ext⟩

/-- `NatTable::get_internal`: `get_by_right`, cloning the found tuple. -/
def NatTable.get_internal (t : NatTable) (ext : LookupTupleIpv4) :
    Option LookupTupleIpv4 :=
  match t.table.get_by_right ext with
  | some tuple => some tuple
  | none => none

/-- `NatTable::get_external`: `get_by_left`, cloning the found tuple. -/
def NatTable.get_external (t : NatTable) (internal : LookupTupleIpv4) :
    Option LookupTupleIpv4 :=
  match t.table.get_by_left internal with
  | some tuple => some tuple
  | none => none

/-- `NatTable::contains_internal`. -/
def NatTable.contains_internal (t : NatTable) (internal : LookupTupleIpv4) : Bool :=
  t.table.contains_left internal

/-- `NatTable::contains_external`. -/
def NatTable.contains_external (t : NatTable) (ext : LookupTupleIpv4) : Bool :=
  t.table.contains_right ext

/-- `NatTable::len`. -/
def NatTable.len (t : NatTable) : Nat :=
  t.table.len

/-- `NatTable::is_empty`. -/
def NatTable.is_empty (t : NatTable) : Bool :=
  t.table.is_empty

/-- `NatTable::clear`. -/
def NatTable.clear (t : NatTable) : NatTable :=
  ⟨t.table.clear⟩

/-- One call to a public method of `NatTable`. -/
inductive TableOp : Type
  | insert (internal ext : LookupTupleIpv4)
  | insertOverwrite (internal ext : LookupTupleIpv4)
  | clear
  | getInternal (ext : LookupTupleIpv4)
  | getExternal (internal : LookupTupleIpv4)
  | containsInternal (internal : LookupTupleIpv4)
  | containsExternal (ext : LookupTupleIpv4)
  | len
  | isEmpty
  deriving DecidableEq

/-- What a single call returns to its caller. -/
inductive Observation : Type
  | ok
  | err
  | tuple (result : Option LookupTupleIpv4)
  | flag (b : Bool)
  | count (n : Nat)
  deriving DecidableEq

/-- Operations that take the shared (read) lock: all except `insert`,
`insert_overwrite` and `clear`. -/
def TableOp.isRead : TableOp → Bool
  | TableOp.insert _ _ => false
  | TableOp.insertOverwrite _ _ => false
  | TableOp.clear => false
  | _ => true

/-- Small-step semantics of one public call: the observation returned to the
caller and the state afterwards.  Read methods take `&self` and only call
non-mutating map methods, hence return the state unchanged. -/
def NatTable.step (t : NatTable) : TableOp → Observation × NatTable
  | TableOp.insert i e =>
    match t.insert i e with
    | (Except.ok _, t') => (Observation.ok, t')
    | (Except.error _, t') => (Observation.err, t')
  | TableOp.insertOverwrite i e => (Observation.ok, t.insert_overwrite i e)
  | TableOp.clear => (Observation.ok, t.clear)
  | TableOp.getInternal e => (Observation.tuple (t.get_internal e), t)
  | TableOp.getExternal i => (Observation.tuple (t.get_external i), t)
  | TableOp.containsInternal i => (Observation.flag (t.contains_internal i), t)
  | TableOp.containsExternal e => (Observation.flag (t.contains_external e), t)
  | TableOp.len => (Observation.count t.len, t)
  | TableOp.isEmpty => (Observation.flag t.is_empty, t)

/-- The state reached by running a sequence of calls from `NatTable::new`. -/
def NatTable.run (ops : List TableOp) : NatTable :=
  ops.foldl (fun t op => (t.step op).2) NatTable.new

/-- A concrete tuple family for witnesses: distinct protocols. -/
def tup (n : Nat) : LookupTupleIpv4 :=
  ⟨n, 0, 0, 0, 0⟩

/-! Helper lemmas about the embedded operations. -/

theorem BiHashMap.contains_left_iff {α β : Type} [DecidableEq α]
    (m : BiHashMap α β) (l : α) :
    m.contains_left l = true ↔ ∃ p ∈ m, p.1 = l := by
  simp [BiHashMap.contains_left, List.any_eq_true]

theorem BiHashMap.contains_right_iff {α β : Type} [DecidableEq β]
    (m : BiHashMap α β) (r : β) :
    m.contains_right r = true ↔ ∃ p ∈ m, p.2 = r := by
  simp [BiHashMap.contains_right, List.any_eq_true]

theorem BiHashMap.mem_insert_iff {α β : Type} [DecidableEq α] [DecidableEq β]
    (m : BiHashMap α β) (l : α) (r : β) (p : α × β) :
    p ∈ m.insert l r ↔ p = (l, r) ∨ (p ∈ m ∧ p.1 ≠ l ∧ p.2 ≠ r) := by
  simp [BiHashMap.insert, List.mem_filter]

theorem BiHashMap.get_by_left_insert_self {α β : Type} [DecidableEq α] [DecidableEq β]
    (m : BiHashMap α β) (l : α) (r : β) :
    (m.insert l r).get_by_left l = some r := by
  unfold BiHashMap.insert BiHashMap.get_by_left
  rw [List.find?_cons_of_pos]
  · rfl
  · simp

theorem BiHashMap.get_by_right_insert_self {α β : Type} [DecidableEq α] [DecidableEq β]
    (m : BiHashMap α β) (l : α) (r : β) :
    (m.insert l r).get_by_right r = some l := by
  unfold BiHashMap.insert BiHashMap.get_by_right
  rw [List.find?_cons_of_pos]
  · rfl
  · simp

theorem BiHashMap.bijective_symm {α β : Type} :
    Symmetric (fun p q : α × β => p.1 ≠ q.1 ∧ p.2 ≠ q.2) := by
  intro p q h
  exact ⟨Ne.symm h.1, Ne.symm h.2⟩

theorem BiHashMap.Bijective.eq_snd_of_mem {α β : Type} {m : BiHashMap α β}
    (h : m.Bijective) {i : α} {e1 e2 : β}
    (h1 : (i, e1) ∈ m) (h2 : (i, e2) ∈ m) : e1 = e2 := by
  by_cases heq : ((i, e1) : α × β) = (i, e2)
  · exact congrArg Prod.snd heq
  · exact absurd rfl ((List.Pairwise.forall BiHashMap.bijective_symm h h1 h2 heq).1)

theorem BiHashMap.Bijective.eq_fst_of_mem {α β : Type} {m : BiHashMap α β}
    (h : m.Bijective) {i1 i2 : α} {e : β}
    (h1 : (i1, e) ∈ m) (h2 : (i2, e) ∈ m) : i1 = i2 := by
  by_cases heq : ((i1, e) : α × β) = (i2, e)
  · exact congrArg Prod.fst heq
  · exact absurd rfl ((List.Pairwise.forall BiHashMap.bijective_symm h h1 h2 heq).2)

theorem BiHashMap.Bijective.insert {α β : Type} [DecidableEq α] [DecidableEq β]
    {m : BiHashMap α β} (h : m.Bijective) (l : α) (r : β) :
    (m.insert l r).Bijective := by
  unfold BiHashMap.insert BiHashMap.Bijective
  refine List.Pairwise.cons ?_ (List.Pairwise.sublist (List.filter_sublist m) h)
  intro p hp
  simp only [List.mem_filter, Bool.and_eq_true, Bool.not_eq_eq_eq_not, Bool.not_true,
    decide_eq_false_iff_not] at hp
  exact ⟨fun hc => hp.2.1 hc.symm, fun hc => hp.2.2 hc.symm⟩

theorem NatTable.insert_eq (t : NatTable) (i e : LookupTupleIpv4) :
    t.insert i e =
      if t.table.contains_left i || t.table.contains_right e then
        (Except.error (), t)
      else
        (Except.ok (), ⟨t.table.insert i e⟩) := by
  unfold NatTable.insert BiHashMap.insert_no_overwrite
  by_cases h : (t.table.contains_left i || t.table.contains_right e) = true
  · simp [h]
  · simp [h]

theorem NatTable.get_external_eq (t : NatTable) (i : LookupTupleIpv4) :
    t.get_external i = t.table.get_by_left i := by
  unfold NatTable.get_external
  cases t.table.get_by_left i <;> rfl

theorem NatTable.get_internal_eq (t : NatTable) (e : LookupTupleIpv4) :
    t.get_internal e = t.table.get_by_right e := by
  unfold NatTable.get_internal
  cases t.table.get_by_right e <;> rfl

theorem NatTable.step_insert (t : NatTable) (i e : LookupTupleIpv4) :
    t.step (TableOp.insert i e) =
      if t.table.contains_left i || t.table.contains_right e then
        (Observation.err, t)
      else
        (Observation.ok, ⟨t.table.insert i e⟩) := by
  simp only [NatTable.step]
  rw [NatTable.insert_eq]
  by_cases hc : (t.table.contains_left i || t.table.contains_right e) = true <;>
    simp [hc]

theorem NatTable.step_bijective {t : NatTable} (h : t.table.Bijective) (op : TableOp) :
    ((t.step op).2).table.Bijective := by
  cases op with
  | insert i e =>
    rw [NatTable.step_insert]
    by_cases hc : (t.table.contains_left i || t.table.contains_right e) = true
    · simp only [if_pos hc]
      exact h
    · simp only [if_neg hc]
      exact h.insert i e
  | insertOverwrite i e => exact h.insert i e
  | clear => exact List.Pairwise.nil
  | getInternal e => exact h
  | getExternal i => exact h
  | containsInternal i => exact h
  | containsExternal e => exact h
  | len => exact h
  | isEmpty => exact h

theorem NatTable.run_bijective (ops : List TableOp) :
    (NatTable.run ops).table.Bijective := by
  have key : ∀ (l : List TableOp) (t : NatTable), t.table.Bijective →
      (l.foldl (fun s op => (s.step op).2) t).table.Bijective := by
    intro l
    induction l with
    | nil => intro t h; exact h
    | cons op rest ih =>
      intro t h
      exact ih _ (NatTable.step_bijective h op)
  exact key ops NatTable.new List.Pairwise.nil

/-- C1: starting from `new`, after any sequence of public calls (`insert`,
`insert_overwrite`, `clear`, and the read methods) the table is a bijection:
no internal tuple is paired with two different external tuples and no external
tuple is paired with two different internal tuples. -/
theorem nat_table_bijection (ops : List TableOp) :
    (∀ i e1 e2 : LookupTupleIpv4,
      (i, e1) ∈ (NatTable.run ops).table → (i, e2) ∈ (NatTable.run ops).table →
        e1 = e2) ∧
    (∀ e i1 i2 : LookupTupleIpv4,
      (i1, e) ∈ (NatTable.run ops).table → (i2, e) ∈ (NatTable.run ops).table →
        i1 = i2) := by
  have h := NatTable.run_bijective ops
  exact ⟨fun i e1 e2 h1 h2 => h.eq_snd_of_mem h1 h2,
         fun e i1 i2 h1 h2 => h.eq_fst_of_mem h1 h2⟩

/-- Witness for C1: the run consisting of one successful insert. -/
theorem nat_table_bijection_witness :
    ((tup 0, tup 1) ∈ (NatTable.run [TableOp.insert (tup 0) (tup 1)]).table ∧
      tup 1 = tup 1) ∧
    ((tup 0, tup 1) ∈ (NatTable.run [TableOp.insert (tup 0) (tup 1)]).table ∧
      tup 0 = tup 0) :=
  ⟨⟨by decide,
    (nat_table_bijection [TableOp.insert (tup 0) (tup 1)]).1 (tup 0) (tup 1) (tup 1)
      (by decide) (by decide)⟩,
   ⟨by decide,
    (nat_table_bijection [TableOp.insert (tup 0) (tup 1)]).2 (tup 1) (tup 0) (tup 0)
      (by decide) (by decide)⟩⟩

/-- C2 (amended): with `(A, B)` present, `insert A B`, `insert A X` (`X ≠ B`)
and `insert Y B` (`Y ≠ A`) all return `Err(())` and leave the table unchanged;
and `insert i e` succeeds exactly when `i` is not the internal side of any
existing pair and `e` is not the external side of any existing pair.  (The
original claim's stronger condition — failure whenever either argument
participates in a mapping on either side — is refuted by the counterexample:
an argument occurring only on the opposite side does not block insertion.) -/
theorem insert_rejects_collisions (t : NatTable) (A B X Y : LookupTupleIpv4)
    (hAB : (A, B) ∈ t.table) (_hX : X ≠ B) (_hY : Y ≠ A) :
    ((t.insert A B).1 = Except.error () ∧ (t.insert A B).2 = t) ∧
    ((t.insert A X).1 = Except.error () ∧ (t.insert A X).2 = t) ∧
    ((t.insert Y B).1 = Except.error () ∧ (t.insert Y B).2 = t) ∧
    (∀ i e : LookupTupleIpv4, (t.insert i e).1 = Except.ok () ↔
      (t.contains_internal i = false ∧ t.contains_external e = false)) := by
  have hcl : t.table.contains_left A = true :=
    (BiHashMap.contains_left_iff t.table A).mpr ⟨(A, B), hAB, rfl⟩
  have hcr : t.table.contains_right B = true :=
    (BiHashMap.contains_right_iff t.table B).mpr ⟨(A, B), hAB, rfl⟩
  refine ⟨?_, ?_, ?_, ?_⟩
  · rw [NatTable.insert_eq]
    simp [hcl]
  · rw [NatTable.insert_eq]
    simp [hcl]
  · rw [NatTable.insert_eq]
    simp [hcr]
  · intro i e
    rw [NatTable.insert_eq]
    unfold NatTable.contains_internal NatTable.contains_external
    by_cases hci : t.table.contains_left i = true <;>
      by_cases hce : t.table.contains_right e = true <;>
        simp [hci, hce]

/-- Witness for C2 at a concrete two-entry table. -/
theorem insert_rejects_collisions_witness :
    ((tup 0, tup 1) ∈ (NatTable.run [TableOp.insert (tup 0) (tup 1)]).table ∧
      tup 2 ≠ tup 1 ∧ tup 3 ≠ tup 0) ∧
    ((NatTable.run [TableOp.insert (tup 0) (tup 1)]).insert (tup 0) (tup 1)).1
      = Except.error () :=
  ⟨⟨by decide, by decide, by decide⟩,
    (insert_rejects_collisions (NatTable.run [TableOp.insert (tup 0) (tup 1)])
      (tup 0) (tup 1) (tup 2) (tup 3) (by decide) (by decide) (by decide)).1.1⟩

/-- C2 counterexample: in the table holding the single pair
`(tup 0, tup 1)`, the value `tup 1` participates in a mapping (as its external
side), yet `insert (tup 1) (tup 2)` succeeds — so insert does NOT fail
whenever an argument participates in an existing mapping on either side. -/
theorem insert_cross_side_cex :
    (NatTable.new.insert (tup 0) (tup 1)).2.contains_external (tup 1) = true ∧
    ((NatTable.new.insert (tup 0) (tup 1)).2.insert (tup 1) (tup 2)).1
      = Except.ok () := by
  exact ⟨by decide, by decide⟩

/-- C3: whenever `insert A B` returns `Ok(())`, in the resulting table
`get_external A = some B` and `get_internal B = some A`. -/
theorem round_trip_lookup (t : NatTable) (A B : LookupTupleIpv4)
    (h : (t.insert A B).1 = Except.ok ()) :
    (t.insert A B).2.get_external A = some B ∧
    (t.insert A B).2.get_internal B = some A := by
  rw [NatTable.insert_eq] at h ⊢
  by_cases hc : (t.table.contains_left A || t.table.contains_right B) = true
  · rw [if_pos hc] at h
    exact absurd h (by simp)
  · rw [if_neg hc] at h ⊢
    constructor
    · rw [NatTable.get_external_eq]
      exact BiHashMap.get_by_left_insert_self t.table A B
    · rw [NatTable.get_internal_eq]
      exact BiHashMap.get_by_right_insert_self t.table A B

/-- Witness for C3: inserting into the empty table. -/
theorem round_trip_lookup_witness :
    (NatTable.new.insert (tup 0) (tup 1)).1 = Except.ok () ∧
    (NatTable.new.insert (tup 0) (tup 1)).2.get_external (tup 0) = some (tup 1) ∧
    (NatTable.new.insert (tup 0) (tup 1)).2.get_internal (tup 1) = some (tup 0) :=
  ⟨by decide,
    (round_trip_lookup NatTable.new (tup 0) (tup 1) (by decide)).1,
    (round_trip_lookup NatTable.new (tup 0) (tup 1) (by decide)).2⟩

theorem BiHashMap.get_by_right_eq_none {α β : Type} [DecidableEq β]
    (m : BiHashMap α β) (r : β) (h : ∀ p ∈ m, p.2 ≠ r) :
    m.get_by_right r = none := by
  have hf : m.find? (fun p => decide (p.2 = r)) = none :=
    List.find?_eq_none.mpr (by intro p hp; simp [h p hp])
  unfold BiHashMap.get_by_right
  rw [hf]
  rfl

/-- C4 (amended): with the table a bijection (as every reachable table is, by
`NatTable.run_bijective`), `(A, B)` present and `C ≠ B`, after
`insert_overwrite A C` we have `get_external A = some C`,
`get_internal B = none` (B orphaned) and `get_internal C = some A`.  (The
original claim omits `C ≠ B`; for `C = B` the pair is re-inserted and
`get_internal B = some A ≠ none` — see the counterexample.) -/
theorem overwrite_displaces (t : NatTable) (A B C : LookupTupleIpv4)
    (hbij : t.table.Bijective) (hAB : (A, B) ∈ t.table) (hCB : C ≠ B) :
    (t.insert_overwrite A C).get_external A = some C ∧
    (t.insert_overwrite A C).get_internal B = none ∧
    (t.insert_overwrite A C).get_internal C = some A := by
  refine ⟨?_, ?_, ?_⟩
  · rw [NatTable.get_external_eq]
    exact BiHashMap.get_by_left_insert_self t.table A C
  · rw [NatTable.get_internal_eq]
    refine BiHashMap.get_by_right_eq_none _ _ ?_
    intro p hp
    rw [show (t.insert_overwrite A C).table = t.table.insert A C from rfl,
      BiHashMap.mem_insert_iff] at hp
    rcases hp with rfl | ⟨hpm, hp1, _hp2⟩
    · exact hCB
    · intro hpB
      apply hp1
      have hmem : (p.1, B) ∈ t.table := by
        rw [← hpB, Prod.mk.eta]
        exact hpm
      exact hbij.eq_fst_of_mem hmem hAB
  · rw [NatTable.get_internal_eq]
    exact BiHashMap.get_by_right_insert_self t.table A C

/-- Witness for C4: table `{(tup 0, tup 1)}`, overwrite with `tup 2`. -/
theorem overwrite_displaces_witness :
    (BiHashMap.Bijective (NatTable.run [TableOp.insert (tup 0) (tup 1)]).table ∧
      (tup 0, tup 1) ∈ (NatTable.run [TableOp.insert (tup 0) (tup 1)]).table ∧
      tup 2 ≠ tup 1) ∧
    ((NatTable.run [TableOp.insert (tup 0) (tup 1)]).insert_overwrite (tup 0)
      (tup 2)).get_internal (tup 1) = none :=
  ⟨⟨by decide, by decide, by decide⟩,
    (overwrite_displaces (NatTable.run [TableOp.insert (tup 0) (tup 1)])
      (tup 0) (tup 1) (tup 2) (by decide) (by decide) (by decide)).2.1⟩

/-- C4 counterexample: re-overwriting the very pair that is present
(`C = B`): with `(tup 0, tup 1)` present, after
`insert_overwrite (tup 0) (tup 1)` the lookup `get_internal (tup 1)` is
`some (tup 0)`, not `none` as the unrestricted claim demands. -/
theorem overwrite_same_pair_cex :
    ((tup 0, tup 1) ∈ (NatTable.new.insert (tup 0) (tup 1)).2.table) ∧
    ((NatTable.new.insert (tup 0) (tup 1)).2.insert_overwrite (tup 0)
      (tup 1)).get_internal (tup 1) ≠ none := by
  exact ⟨by decide, by decide⟩

/-- C5 (amended): `insert_overwrite A C` removes exactly the prior pairs whose
internal side is `A` or whose external side is `C` and then inserts `(A, C)`
(first conjunct — in particular the operation always yields a well-defined
table, it cannot fail); a pair in which `A` or `C` occurs only on the
opposite side is kept.  In the scenario with `(A, B)` and `(Y, C)` present
(`Y ≠ A`) in a bijective table, both are evicted, `(A, C)` is present, and
the only remaining pair whose internal side is `A` or `Y` or whose external
side is `B` or `C` is `(A, C)`.  (The original claim's "involves either
argument on either side" is refuted by the counterexample.) -/
theorem overwrite_evicts (t : NatTable) (A B Y C : LookupTupleIpv4)
    (hbij : t.table.Bijective) (hAB : (A, B) ∈ t.table) (hYC : (Y, C) ∈ t.table)
    (hY : Y ≠ A) :
    (∀ p : LookupTupleIpv4 × LookupTupleIpv4,
      p ∈ (t.insert_overwrite A C).table ↔
        p = (A, C) ∨ (p ∈ t.table ∧ p.1 ≠ A ∧ p.2 ≠ C)) ∧
    (A, C) ∈ (t.insert_overwrite A C).table ∧
    (A, B) ∉ (t.insert_overwrite A C).table ∧
    (Y, C) ∉ (t.insert_overwrite A C).table ∧
    (∀ p ∈ (t.insert_overwrite A C).table,
      (p.1 = A ∨ p.1 = Y ∨ p.2 = B ∨ p.2 = C) → p = (A, C)) := by
  have hBC : B ≠ C := fun h =>
    hY (hbij.eq_fst_of_mem (show (Y, B) ∈ t.table from h.symm ▸ hYC) hAB)
  have hchar : ∀ p : LookupTupleIpv4 × LookupTupleIpv4,
      p ∈ (t.insert_overwrite A C).table ↔
        p = (A, C) ∨ (p ∈ t.table ∧ p.1 ≠ A ∧ p.2 ≠ C) :=
    fun p => BiHashMap.mem_insert_iff t.table A C p
  refine ⟨hchar, ?_, ?_, ?_, ?_⟩
  · exact (hchar (A, C)).mpr (Or.inl rfl)
  · intro hmem
    rcases (hchar (A, B)).mp hmem with h | ⟨_, h1, _⟩
    · exact hBC (congrArg Prod.snd h)
    · exact h1 rfl
  · intro hmem
    rcases (hchar (Y, C)).mp hmem with h | ⟨_, _, h2⟩
    · exact hY (congrArg Prod.fst h)
    · exact h2 rfl
  · intro p hmem hdisj
    rcases (hchar p).mp hmem with h | ⟨hpm, hp1, hp2⟩
    · exact h
    · exfalso
      rcases hdisj with h | h | h | h
      · exact hp1 h
      · apply hp2
        have hmemY : (Y, p.2) ∈ t.table := by
          rw [← h, Prod.mk.eta]
          exact hpm
        exact hbij.eq_snd_of_mem hmemY hYC
      · apply hp1
        have hmemB : (p.1, B) ∈ t.table := by
          rw [← h, Prod.mk.eta]
          exact hpm
        exact hbij.eq_fst_of_mem hmemB hAB
      · exact hp2 h

/-- Witness for C5: table `{(tup 0, tup 1), (tup 2, tup 3)}`, overwrite with
the pair `(tup 0, tup 3)`. -/
theorem overwrite_evicts_witness :
    (BiHashMap.Bijective
        (NatTable.run [TableOp.insert (tup 0) (tup 1),
          TableOp.insert (tup 2) (tup 3)]).table ∧
      (tup 0, tup 1) ∈ (NatTable.run [TableOp.insert (tup 0) (tup 1),
        TableOp.insert (tup 2) (tup 3)]).table ∧
      (tup 2, tup 3) ∈ (NatTable.run [TableOp.insert (tup 0) (tup 1),
        TableOp.insert (tup 2) (tup 3)]).table ∧
      tup 2 ≠ tup 0) ∧
    (tup 2, tup 3) ∉
      ((NatTable.run [TableOp.insert (tup 0) (tup 1),
        TableOp.insert (tup 2) (tup 3)]).insert_overwrite (tup 0) (tup 3)).table :=
  ⟨⟨by decide, by decide, by decide, by decide⟩,
    (overwrite_evicts
      (NatTable.run [TableOp.insert (tup 0) (tup 1), TableOp.insert (tup 2) (tup 3)])
      (tup 0) (tup 1) (tup 2) (tup 3)
      (by decide) (by decide) (by decide) (by decide)).2.2.2.1⟩

/-- C5 counterexample: in the table `{(tup 0, tup 1)}`, the pair
`(tup 0, tup 1)` involves the internal argument `tup 1` of
`insert_overwrite (tup 1) (tup 2)` (on its external side), yet it survives
the call — so insert_overwrite does NOT remove every prior mapping that
involves either argument on either side. -/
theorem overwrite_cross_side_cex :
    (tup 0, tup 1) ∈ (NatTable.new.insert (tup 0) (tup 1)).2.table ∧
    (tup 0, tup 1) ∈ ((NatTable.new.insert (tup 0) (tup 1)).2.insert_overwrite
      (tup 1) (tup 2)).table ∧
    (tup 0, tup 1) ≠ (tup 1, tup 2) := by
  exact ⟨by decide, by decide, by decide⟩

/-- C6: after `clear`, `is_empty` is `true`, `len` is `0`, and for every
tuple `x` (in particular every tuple present before the call) both lookups
return `none` and both containment checks return `false`. -/
theorem clear_empties (t : NatTable) (x : LookupTupleIpv4) :
    t.clear.is_empty = true ∧ t.clear.len = 0 ∧
    t.clear.get_internal x = none ∧ t.clear.get_external x = none ∧
    t.clear.contains_internal x = false ∧ t.clear.contains_external x = false := by
  exact ⟨rfl, rfl, rfl, rfl, rfl, rfl⟩

/-- C7: the read operations (`get_internal`, `get_external`,
`contains_internal`, `contains_external`, `len`, `is_empty`) return the
mapping unchanged and cannot fail: their observation is never the mutator
outcome `ok` nor the failure outcome `err` — it is always a returned value
(tuple option, flag or count). -/
theorem reads_pure (t : NatTable) (op : TableOp) (h : op.isRead = true) :
    (t.step op).2 = t ∧ (t.step op).1 ≠ Observation.ok ∧
      (t.step op).1 ≠ Observation.err := by
  cases op <;> simp_all [NatTable.step, TableOp.isRead]

/-- Witness for C7: a `len` call on the empty table. -/
theorem reads_pure_witness :
    TableOp.len.isRead = true ∧ (NatTable.new.step TableOp.len).2 = NatTable.new :=
  ⟨rfl, (reads_pure NatTable.new TableOp.len rfl).1⟩

/-- C9: internal and external identifiers share the type `LookupTupleIpv4`,
and a tuple may occupy both sides of one pair: if `X` is on neither side of
any existing mapping, `insert X X` succeeds, after which
`get_external X = some X` and `get_internal X = some X`. -/
theorem self_pair_insert (t : NatTable) (X : LookupTupleIpv4)
    (h1 : t.contains_internal X = false) (h2 : t.contains_external X = false) :
    (t.insert X X).1 = Except.ok () ∧
    (t.insert X X).2.get_external X = some X ∧
    (t.insert X X).2.get_internal X = some X := by
  have hc : (t.table.contains_left X || t.table.contains_right X) = false := by
    unfold NatTable.contains_internal at h1
    unfold NatTable.contains_external at h2
    simp [h1, h2]
  rw [NatTable.insert_eq, if_neg (by simp [hc])]
  refine ⟨rfl, ?_, ?_⟩
  · rw [NatTable.get_external_eq]
    exact BiHashMap.get_by_left_insert_self t.table X X
  · rw [NatTable.get_internal_eq]
    exact BiHashMap.get_by_right_insert_self t.table X X

/-- Witness for C9: the empty table and the tuple `tup 0`. -/
theorem self_pair_insert_witness :
    (NatTable.new.contains_internal (tup 0) = false ∧
      NatTable.new.contains_external (tup 0) = false) ∧
    (NatTable.new.insert (tup 0) (tup 0)).1 = Except.ok () :=
  ⟨⟨by decide, by decide⟩,
    (self_pair_insert NatTable.new (tup 0) (by decide) (by decide)).1⟩

/-- C10: on every table state the observers agree: `contains_internal x` is
`true` exactly when `get_external x` is `some`, `contains_external x` is
`true` exactly when `get_internal x` is `some`, and `is_empty` is `true`
exactly when `len = 0`.  (Stated for all states, so in particular for every
reachable one.) -/
theorem observers_agree (t : NatTable) (x : LookupTupleIpv4) :
    (t.contains_internal x = true ↔ (t.get_external x).isSome = true) ∧
    (t.contains_external x = true ↔ (t.get_internal x).isSome = true) ∧
    (t.is_empty = true ↔ t.len = 0) := by
  refine ⟨?_, ?_, ?_⟩
  · rw [NatTable.get_external_eq]
    unfold NatTable.contains_internal BiHashMap.contains_left BiHashMap.get_by_left
    simp [List.any_eq_true, List.find?_isSome]
  · rw [NatTable.get_internal_eq]
    unfold NatTable.contains_external BiHashMap.contains_right BiHashMap.get_by_right
    simp [List.any_eq_true, List.find?_isSome]
  · unfold NatTable.is_empty NatTable.len BiHashMap.is_empty BiHashMap.len
    simp [List.isEmpty_iff_length_eq_zero]

